import Mathlib

/-!
Verification development for the KampusMeal backend (NestJS + Firestore).

The Firestore document store is modelled as association lists keyed by
document id; each service method of the TypeScript sources is translated
into a pure Lean function that threads the database state explicitly and
returns an `Except`-style outcome together with the updated database and
the list of object-storage side effects it performed, in order.

Timestamps (`admin.firestore.Timestamp`) are modelled as abstract instants
(`Nat`); generated ids (`uuidv4`) and the current instant are passed in as
parameters since they come from the environment.  Remote calls that the
services treat as fallible are modelled with an explicit failure flag where
a claim depends on the failure path.
-/

namespace KampusMeal

/-- Association-list lookup, modelling `collection.doc(k).get()`. -/
def alookup {α : Type} (l : List (String × α)) (k : String) : Option α :=
  match l with
  | [] => none
  | (k', v) :: rest => if k' = k then some v else alookup rest k

/-- Association-list insert/replace, modelling `collection.doc(k).set(v)`
(also used for `update` after the document was read). -/
def aset {α : Type} (l : List (String × α)) (k : String) (v : α) : List (String × α) :=
  match l with
  | [] => [(k, v)]
  | (k', v') :: rest => if k' = k then (k, v) :: rest else (k', v') :: aset rest k v

/-- Association-list removal, modelling `collection.doc(k).delete()`
(deleting an absent document succeeds and is a no-op). -/
def adelete {α : Type} (l : List (String × α)) (k : String) : List (String × α) :=
  l.filter (fun kv => kv.1 ≠ k)

theorem alookup_aset_self {α : Type} (l : List (String × α)) (k : String) (v : α) :
    alookup (aset l k v) k = some v := by
  induction l with
  | nil => simp [aset, alookup]
  | cons hd tl ih =>
    by_cases h : hd.1 = k
    · simp [aset, alookup, h]
    · simp [aset, alookup, h, ih]

theorem alookup_aset_ne {α : Type} (l : List (String × α)) (k k' : String) (v : α)
    (h : k ≠ k') : alookup (aset l k v) k' = alookup l k' := by
  induction l with
  | nil => simp [aset, alookup, h]
  | cons hd tl ih =>
    by_cases hh : hd.1 = k
    · simp [aset, alookup, hh, h]
    · by_cases hk : hd.1 = k'
      · simp [aset, alookup, hh, hk, Ne.symm h]
      · simp [aset, alookup, hh, hk, ih]

theorem alookup_adelete_self {α : Type} (l : List (String × α)) (k : String) :
    alookup (adelete l k) k = none := by
  induction l with
  | nil => simp [adelete, alookup]
  | cons hd tl ih =>
    by_cases h : hd.1 = k
    · simpa [adelete, alookup, h] using ih
    · simpa [adelete, alookup, h] using ih

/-! ## Error and effect model -/

/-- Error taxonomy of the Nest exceptions thrown by the services:
`badRequest` = `BadRequestException` (HTTP 400, validation / invalid state),
`notFound` = `NotFoundException` (404), `forbidden` = `ForbiddenException`
(403), `internal` = `InternalServerErrorException` (500). -/
inductive ErrKind where
  | badRequest
  | notFound
  | forbidden
  | internal
deriving DecidableEq, Repr

/-- Object-storage side effects, in the order they are performed. -/
inductive StorageFx where
  | upload (url : String)
  | deleteObj (url : String)
deriving DecidableEq, Repr

/-! ## Data model (src/src/cart/interfaces/cart.interface.ts,
src/src/orders/interfaces/order.interface.ts,
src/src/reviews + src/src/stalls interfaces, docs/firebase/firestore-schema.md) -/

/-- Shape `CartItem` — single item in a cart (also the shape of `OrderItem`,
which is a snapshot of cart items). -/
structure CartItem where
  menuItemId : String
  name : String
  price : Nat
  imageUrl : String
  quantity : Nat
  subtotal : Nat
deriving DecidableEq, Repr

/-- Document `Cart` — cart document, keyed by user id. -/
structure Cart where
  userId : String
  stallId : String
  stallName : String
  items : List CartItem
  totalPrice : Nat
  createdAt : Nat
  updatedAt : Nat
deriving DecidableEq, Repr

/-- Enum `OrderStatus` — status workflow of an order.  `confirmed` is marked
deprecated in the source ("Use PROCESSING instead (backward compatibility)"). -/
inductive OrderStatus where
  | pending_payment
  | waiting_confirmation
  | processing
  | ready
  | completed
  | rejected
  | confirmed
deriving DecidableEq, Repr

/-- Enum `DeliveryMethod`. -/
inductive DeliveryMethod where
  | pickup
  | delivery
deriving DecidableEq, Repr

/-- Order document as persisted in Firestore.  Fields that the `Order`
interface declares but that a writer may leave absent (`undefined`) are
`Option`s; `none` models both an absent field and an explicit `null`. -/
structure OrderDoc where
  id : String
  userId : String
  stallId : String
  stallName : String
  stallImageUrl : Option String
  items : List CartItem
  itemsTotal : Option Nat
  appFee : Option Nat
  deliveryMethod : Option DeliveryMethod
  deliveryFee : Option Nat
  totalPrice : Nat
  paymentProofUrl : Option String
  status : OrderStatus
  rejectionReason : Option String
  isReviewed : Option Bool
  createdAt : Nat
  updatedAt : Nat
deriving DecidableEq, Repr

/-- Document `Review`. -/
structure Review where
  id : String
  orderId : String
  userId : String
  stallId : String
  stallName : String
  userName : String
  rating : Nat
  comment : String
  tags : List String
  imageUrls : List String
  createdAt : Nat
  updatedAt : Nat
deriving DecidableEq, Repr

/-- Menu-item document (fields used by the cart service); the Firestore
document id is the association-list key. -/
structure MenuItem where
  stallId : String
  name : String
  price : Nat
  imageUrl : String
  isAvailable : Bool
deriving DecidableEq, Repr

/-- Stall document (fields used by the cart and review services). -/
structure Stall where
  name : String
  qrisImageUrl : String
  rating : Rat
  totalReviews : Nat
  updatedAt : Nat
deriving DecidableEq, Repr

/-- The Firestore collections touched by the services under verification. -/
structure DB where
  menuItems : List (String × MenuItem)
  stalls : List (String × Stall)
  carts : List (String × Cart)
  orders : List (String × OrderDoc)
  reviews : List (String × Review)
deriving DecidableEq, Repr

/-- Result of one service call: the outcome (returned value or thrown
exception), the database after the call, and the object-storage effects
performed, in order. -/
structure Res (α : Type) where
  out : Except ErrKind α
  db : DB
  fx : List StorageFx
deriving Repr

/-! ## Cart DTO schemas (src/src/cart/dto) -/

/-- Parsed `AddToCartDto`. -/
structure AddToCartDto where
  menuItemId : String
  quantity : Nat
deriving DecidableEq, Repr

/-- Schema `AddToCartSchema` — `menuItemId: z.string().min(1)`,
`quantity: z.coerce.number().int().min(1).max(99).optional().default(1)`.
The raw quantity is taken after numeric coercion. -/
def AddToCartSchema.parse (menuItemId : String) (quantity : Option Int) :
    Option AddToCartDto :=
  if menuItemId.length < 1 then none
  else
    match quantity with
    | none => some ⟨menuItemId, 1⟩
    | some q => if 1 ≤ q ∧ q ≤ 99 then some ⟨menuItemId, q.toNat⟩ else none

/-- Schema `UpdateCartItemSchema` — `quantity: z.coerce.number().int().min(1).max(99)`. -/
def UpdateCartItemSchema.parse (quantity : Int) : Option Nat :=
  if 1 ≤ quantity ∧ quantity ≤ 99 then some quantity.toNat else none

/-! ## CartService (src/unnamed/part_010) -/

/-- Method `CartService.getCart` — returns the cart document for the user or
`null` (the wrapping `CartEntity` and QRIS lookup only affect the HTTP
response shape, not the cart data used by checkout). -/
def getCart (db : DB) (userId : String) : Option Cart :=
  alookup db.carts userId

/-- First-match in-place update of `addToCart`'s increment branch:
`existingCart.items[existingItemIndex].quantity += quantity;
 ... .subtotal = price * quantity` (only the first item found by
`findIndex` is updated). -/
def incFirst (items : List CartItem) (mid : String) (q : Nat) : List CartItem :=
  match items with
  | [] => []
  | it :: rest =>
    if it.menuItemId = mid then
      { it with quantity := it.quantity + q,
                subtotal := it.price * (it.quantity + q) } :: rest
    else it :: incFirst rest mid q

/-- First-match update of `updateItemQuantity`:
`cart.items[itemIndex].quantity = dto.quantity;
 ... .subtotal = price * dto.quantity`. -/
def setQtyFirst (items : List CartItem) (mid : String) (q : Nat) : List CartItem :=
  match items with
  | [] => []
  | it :: rest =>
    if it.menuItemId = mid then
      { it with quantity := q, subtotal := it.price * q } :: rest
    else it :: setQtyFirst rest mid q

/-- Total `items.reduce((sum, item) => sum + item.subtotal, 0)`. -/
def cartTotal (items : List CartItem) : Nat :=
  (items.map CartItem.subtotal).sum

/-- Method `CartService.addToCart` (part_010 lines 45-159).  The menu item is
looked up via `MenuItemsService.findOne` (404 when absent), availability
and the single-stall policy are checked, then the item is added or its
quantity incremented and the totals recomputed. -/
def addToCart (now : Nat) (userId : String) (dto : AddToCartDto) (db : DB) :
    Res Cart :=
  match alookup db.menuItems dto.menuItemId with
  | none => ⟨.error .notFound, db, []⟩
  | some menuItem =>
    if ¬ menuItem.isAvailable then ⟨.error .badRequest, db, []⟩
    else
      match alookup db.stalls menuItem.stallId with
      | none => ⟨.error .notFound, db, []⟩
      | some stall =>
        let q := if dto.quantity = 0 then 1 else dto.quantity
        match alookup db.carts userId with
        | some existingCart =>
          if existingCart.stallId ≠ menuItem.stallId then
            ⟨.error .badRequest, db, []⟩
          else
            let items' :=
              if existingCart.items.any (fun it => it.menuItemId = dto.menuItemId) then
                incFirst existingCart.items dto.menuItemId q
              else
                existingCart.items ++
                  [⟨dto.menuItemId, menuItem.name, menuItem.price,
                    menuItem.imageUrl, q, menuItem.price * q⟩]
            let cart' : Cart :=
              { existingCart with
                  items := items', totalPrice := cartTotal items', updatedAt := now }
            ⟨.ok cart', { db with carts := aset db.carts userId cart' }, []⟩
        | none =>
          let newItem : CartItem :=
            ⟨dto.menuItemId, menuItem.name, menuItem.price, menuItem.imageUrl,
             q, menuItem.price * q⟩
          let newCart : Cart :=
            { userId := userId, stallId := menuItem.stallId, stallName := stall.name,
              items := [newItem], totalPrice := newItem.subtotal,
              createdAt := now, updatedAt := now }
          ⟨.ok newCart, { db with carts := aset db.carts userId newCart }, []⟩

/-- Method `CartService.updateItemQuantity` (part_010 lines 195-257). -/
def updateItemQuantity (now : Nat) (userId menuItemId : String) (quantity : Nat)
    (db : DB) : Res Cart :=
  match alookup db.carts userId with
  | none => ⟨.error .notFound, db, []⟩
  | some cart =>
    if ¬ cart.items.any (fun it => it.menuItemId = menuItemId) then
      ⟨.error .notFound, db, []⟩
    else
      let items' := setQtyFirst cart.items menuItemId quantity
      let cart' : Cart :=
        { cart with items := items', totalPrice := cartTotal items', updatedAt := now }
      ⟨.ok cart', { db with carts := aset db.carts userId cart' }, []⟩

/-- Method `CartService.removeItem` (part_010 lines 262-305): filters the item
out; when the remaining list is empty the cart document is deleted,
otherwise totals are recomputed and the document updated. -/
def removeItem (now : Nat) (userId menuItemId : String) (db : DB) : Res Unit :=
  match alookup db.carts userId with
  | none => ⟨.error .notFound, db, []⟩
  | some cart =>
    let items' := cart.items.filter (fun it => it.menuItemId ≠ menuItemId)
    if items'.length = 0 then
      ⟨.ok (), { db with carts := adelete db.carts userId }, []⟩
    else
      let cart' : Cart :=
        { cart with items := items', totalPrice := cartTotal items', updatedAt := now }
      ⟨.ok (), { db with carts := aset db.carts userId cart' }, []⟩

/-- Method `CartService.clearCart` (part_010 lines 310-320). -/
def clearCart (userId : String) (db : DB) : DB :=
  { db with carts := adelete db.carts userId }

/-! ## Order DTO schemas (src/src/orders/dto/query-order.dto.ts) -/

/-- Parsed `QueryOrderDto`.  `startDate`/`endDate` are optional date
bounds; the raw schema accepts them as strings, modelled here as the
abstract instants they denote so that membership in the range can be
stated.  `page`/`limit` carry the schema defaults 1 and 10. -/
structure QueryOrderDto where
  status : Option OrderStatus
  startDate : Option Nat
  endDate : Option Nat
  page : Nat
  limit : Nat
deriving DecidableEq, Repr

/-- JavaScript `String.prototype.trim`, the transform zod's `.trim()`
applies: drop leading and trailing whitespace. -/
def jsTrim (s : String) : String :=
  ⟨((s.data.dropWhile Char.isWhitespace).reverse.dropWhile Char.isWhitespace).reverse⟩

/-- Parsed `RejectOrderDto` is the parsed `reason` string.
`RejectOrderSchema` is `z.object({ reason:
z.string().min(10).max(500).trim() })`: zod runs the checks in the order
they were appended, so `min`/`max` see the raw string and the `trim`
transform is applied afterwards to produce the parsed value.  `none`
models the `ZodValidationPipe` turning a failed parse into a
`BadRequestException`. -/
def RejectOrderSchema.parse (reason : String) : Option String :=
  if 10 ≤ reason.length then
    if reason.length ≤ 500 then some (jsTrim reason) else none
  else none

/-! ## OrdersService (src/unnamed/part_014) -/

/-- Constant `ALLOWED_IMAGE_TYPES` (part_014 lines 36-41). -/
def ALLOWED_IMAGE_TYPES : List String :=
  ["image/jpeg", "image/jpg", "image/png", "image/webp"]

/-- Constant `MAX_FILE_SIZE` — 5MB (part_014 line 44). -/
def MAX_FILE_SIZE : Nat := 5 * 1024 * 1024

/-- Uploaded file (`Express.Multer.File`): the fields the services
inspect.  A missing `proof` part of the multipart body arrives as
`undefined`, modelled by passing `Option ImgFile` to the services. -/
structure ImgFile where
  mimetype : String
  size : Nat
deriving DecidableEq, Repr

/-- Method `OrdersService.validateImageFile` (part_014 lines 611-627). -/
def validateImageFile (file : Option ImgFile) : Except ErrKind Unit :=
  match file with
  | none => .error .badRequest
  | some f =>
    if ¬ ALLOWED_IMAGE_TYPES.contains f.mimetype then .error .badRequest
    else if f.size > MAX_FILE_SIZE then .error .badRequest
    else .ok ()

/-- Public URL produced by `OrdersService.uploadImage`; the stored path is
`payment-proofs/{orderId}/{timestamp}_{rand}.{ext}` under the bucket's
public prefix — modelled as a function of the order id and the instant. -/
def proofUrl (orderId : String) (now : Nat) : String :=
  "payment-proofs/" ++ orderId ++ "/" ++ toString now

/-- Method `OrdersService.checkout` (part_014 lines 54-108).  `newId` is the
generated `uuidv4`, `now` the current instant; `setFails` injects a
failure of the remote `orders.doc(orderId).set(orderData)` call (caught by
the service and rethrown as an internal error).  The order document is
written exactly as the source's object literal: no `stallImageUrl`,
`itemsTotal`, `appFee`, `deliveryMethod`, `deliveryFee` or `isReviewed`
property is present, and `totalPrice` is copied from `cart.totalPrice`. -/
def checkout (newId : String) (now : Nat) (setFails : Bool)
    (userId : String) (file : Option ImgFile) (db : DB) : Res OrderDoc :=
  match validateImageFile file with
  | .error e => ⟨.error e, db, []⟩
  | .ok _ =>
    match getCart db userId with
    | none => ⟨.error .badRequest, db, []⟩
    | some cart =>
      if cart.items.length = 0 then ⟨.error .badRequest, db, []⟩
      else
        let paymentProofUrl := proofUrl newId now
        let orderData : OrderDoc :=
          { id := newId, userId := userId, stallId := cart.stallId,
            stallName := cart.stallName, stallImageUrl := none,
            items := cart.items, itemsTotal := none, appFee := none,
            deliveryMethod := none, deliveryFee := none,
            totalPrice := cart.totalPrice,
            paymentProofUrl := some paymentProofUrl,
            status := .waiting_confirmation, rejectionReason := none,
            isReviewed := none, createdAt := now, updatedAt := now }
        if setFails then ⟨.error .internal, db, [.upload paymentProofUrl]⟩
        else
          let db1 := { db with orders := aset db.orders newId orderData }
          let db2 := clearCart userId db1
          ⟨.ok orderData, db2, [.upload paymentProofUrl]⟩

/-- Method `OrdersService.uploadPaymentProof` (part_014 lines 113-184): proof
resubmission.  Only legal when the order's status is `rejected`; the old
proof object is deleted (best effort) before the new upload; the update
payload touches only `paymentProofUrl`, `status` and `updatedAt`. -/
def uploadPaymentProof (now : Nat) (userId orderId : String)
    (file : Option ImgFile) (db : DB) : Res OrderDoc :=
  match validateImageFile file with
  | .error e => ⟨.error e, db, []⟩
  | .ok _ =>
    match alookup db.orders orderId with
    | none => ⟨.error .notFound, db, []⟩
    | some order =>
      if order.userId ≠ userId then ⟨.error .forbidden, db, []⟩
      else if order.status ≠ .rejected then ⟨.error .badRequest, db, []⟩
      else
        let delFx : List StorageFx :=
          match order.paymentProofUrl with
          | some url => [.deleteObj url]
          | none => []
        let url := proofUrl orderId now
        let order' : OrderDoc :=
          { order with paymentProofUrl := some url,
                       status := .waiting_confirmation, updatedAt := now }
        ⟨.ok order', { db with orders := aset db.orders orderId order' },
         delFx ++ [.upload url]⟩

/-- Method `OrdersService.confirmPayment` (part_014 lines 356-409): seller
approval.  Legal only from `waiting_confirmation`; the update writes
`status: OrderStatus.CONFIRMED`. -/
def confirmPayment (now : Nat) (stallId orderId : String) (db : DB) :
    Res OrderDoc :=
  match alookup db.orders orderId with
  | none => ⟨.error .notFound, db, []⟩
  | some order =>
    if order.stallId ≠ stallId then ⟨.error .forbidden, db, []⟩
    else if order.status ≠ .waiting_confirmation then ⟨.error .badRequest, db, []⟩
    else
      let order' : OrderDoc := { order with status := .confirmed, updatedAt := now }
      ⟨.ok order', { db with orders := aset db.orders orderId order' }, []⟩

/-- Method `OrdersService.rejectPayment` (part_014 lines 414-472): seller
rejection with a reason (the parsed `RejectOrderDto`).  Legal only from
`waiting_confirmation`. -/
def rejectPayment (now : Nat) (stallId orderId : String) (reason : String)
    (db : DB) : Res OrderDoc :=
  match alookup db.orders orderId with
  | none => ⟨.error .notFound, db, []⟩
  | some order =>
    if order.stallId ≠ stallId then ⟨.error .forbidden, db, []⟩
    else if order.status ≠ .waiting_confirmation then ⟨.error .badRequest, db, []⟩
    else
      let order' : OrderDoc :=
        { order with status := .rejected, rejectionReason := some reason,
                     updatedAt := now }
      ⟨.ok order', { db with orders := aset db.orders orderId order' }, []⟩

/-- Route `PATCH /orders/my-stall/orders/:orderId/reject` as routed through
`ZodValidationPipe(RejectOrderSchema)` and then `rejectPayment`. -/
def rejectEndpoint (now : Nat) (stallId orderId : String) (rawReason : String)
    (db : DB) : Res OrderDoc :=
  match RejectOrderSchema.parse rawReason with
  | none => ⟨.error .badRequest, db, []⟩
  | some reason => rejectPayment now stallId orderId reason db

/-- Method `OrdersService.completeOrder` (part_014 lines 477-530).  The guard is
`order.status !== OrderStatus.CONFIRMED` ("Check status - harus
confirmed"). -/
def completeOrder (now : Nat) (stallId orderId : String) (db : DB) :
    Res OrderDoc :=
  match alookup db.orders orderId with
  | none => ⟨.error .notFound, db, []⟩
  | some order =>
    if order.stallId ≠ stallId then ⟨.error .forbidden, db, []⟩
    else if order.status ≠ .confirmed then ⟨.error .badRequest, db, []⟩
    else
      let order' : OrderDoc := { order with status := .completed, updatedAt := now }
      ⟨.ok order', { db with orders := aset db.orders orderId order' }, []⟩

/-! ## Read-path entities (src/src/orders/entities) -/

/-- Response view built by the `OrderEntity` constructor
(src/src/orders/entities/order.entity.ts lines 26-55): a field-by-field
copy of the document; `status` is passed through unchanged.  Timestamps
stay abstract instants (the constructor only re-renders them as ISO
strings). -/
structure OrderEntityView where
  id : String
  userId : String
  stallId : String
  stallName : String
  items : List CartItem
  itemsTotal : Option Nat
  appFee : Option Nat
  deliveryMethod : Option DeliveryMethod
  deliveryFee : Option Nat
  totalPrice : Nat
  paymentProofUrl : Option String
  status : OrderStatus
  rejectionReason : Option String
  createdAt : Nat
  updatedAt : Nat
deriving DecidableEq, Repr

/-- The `OrderEntity` constructor. -/
def orderEntity (o : OrderDoc) : OrderEntityView :=
  { id := o.id, userId := o.userId, stallId := o.stallId,
    stallName := o.stallName, items := o.items, itemsTotal := o.itemsTotal,
    appFee := o.appFee, deliveryMethod := o.deliveryMethod,
    deliveryFee := o.deliveryFee, totalPrice := o.totalPrice,
    paymentProofUrl := o.paymentProofUrl, status := o.status,
    rejectionReason := o.rejectionReason, createdAt := o.createdAt,
    updatedAt := o.updatedAt }

/-- Status field of the `OrderListEntity` constructor
(src/src/orders/entities/order-list.entity.ts lines 49-54): the one read
path that maps the legacy `confirmed` value to `processing`. -/
def orderListStatus (o : OrderDoc) : OrderStatus :=
  if o.status = .confirmed then .processing else o.status

/-! ## Order history query (part_014 lines 189-232) -/

/-- Insertion into a list already sorted by `createdAt` descending. -/
def insertByCreatedAtDesc (o : OrderDoc) (l : List OrderDoc) : List OrderDoc :=
  match l with
  | [] => [o]
  | x :: xs =>
    if x.createdAt ≤ o.createdAt then o :: x :: xs
    else x :: insertByCreatedAtDesc o xs

/-- Ordering `orderBy('createdAt', 'desc')`. -/
def sortByCreatedAtDesc (l : List OrderDoc) : List OrderDoc :=
  match l with
  | [] => []
  | x :: xs => insertByCreatedAtDesc x (sortByCreatedAtDesc xs)

/-- Pagination meta returned by the history endpoints. -/
structure PageMeta where
  total : Nat
  page : Nat
  limit : Nat
  totalPages : Nat
deriving DecidableEq, Repr

/-- Method `OrdersService.getUserOrders` (part_014 lines 189-232): Firestore
query `where('userId','==',userId)`, plus `where('status','==',s)` when
the filter is present, ordered by `createdAt` descending; then manual
pagination with `page = query.page || 1`, `limit = query.limit || 10` and
`slice(startIndex, endIndex)`.  The `startDate`/`endDate` fields of the
query are never consulted. -/
def getUserOrders (userId : String) (q : QueryOrderDto) (db : DB) :
    Res (List OrderEntityView × PageMeta) :=
  let filtered := (db.orders.map Prod.snd).filter
    (fun o => o.userId == userId &&
      match q.status with
      | none => true
      | some s => o.status == s)
  let allOrders := sortByCreatedAtDesc filtered
  let page := if q.page = 0 then 1 else q.page
  let limit := if q.limit = 0 then 10 else q.limit
  let startIndex := (page - 1) * limit
  let paginated := (allOrders.drop startIndex).take limit
  ⟨.ok (paginated.map orderEntity,
        { total := allOrders.length, page := page, limit := limit,
          totalPages := (allOrders.length + limit - 1) / limit }),
   db, []⟩

/-! ## ReviewsService (src/unnamed/part_017) -/

/-- Parsed `CreateReviewDto` (rating 1-5, optional comment/tags). -/
structure CreateReviewDto where
  rating : Nat
  comment : Option String
  tags : Option (List String)
deriving DecidableEq, Repr

/-- Constant `MAX_IMAGES` per review (part_017 line 55). -/
def MAX_IMAGES : Nat := 5

/-- Public URL for an uploaded review image
(`reviews/{reviewId}/{timestamp}_{rand}.{ext}`); the per-file random
suffix is abstracted by the file's position. -/
def reviewImgUrl (reviewId : String) (now idx : Nat) : String :=
  "reviews/" ++ reviewId ++ "/" ++ toString now ++ "-" ++ toString idx

/-- Method `ReviewsService.updateStallRating` (part_017 lines 317-363): full
recompute of the stall's `rating` (mean over all of the stall's reviews,
rounded to one decimal, stored as 0 when there are none) and
`totalReviews`.  Failures of this step are swallowed by the service; a
missing stall document behaves like a failed `update`, leaving the
database unchanged. -/
def updateStallRating (now : Nat) (stallId : String) (db : DB) : DB :=
  match alookup db.stalls stallId with
  | none => db
  | some stall =>
    let ratings := ((db.reviews.map Prod.snd).filter
      (fun r => r.stallId = stallId)).map Review.rating
    let count := ratings.length
    if count = 0 then
      let stall' : Stall := { stall with rating := 0, totalReviews := 0, updatedAt := now }
      { db with stalls := aset db.stalls stallId stall' }
    else
      let avg : Rat := (ratings.sum : Rat) / (count : Rat)
      let rounded : Rat := (round (avg * 10) : Int) / 10
      let stall' : Stall :=
        { stall with rating := rounded, totalReviews := count, updatedAt := now }
      { db with stalls := aset db.stalls stallId stall' }

/-- Method `ReviewsService.createReview` (part_017 lines 62-192).  Checks, in
source order: order exists (404), caller owns it (403), status is
`completed` (400), no review with this `orderId` exists yet (400); then
image count/type/size validation and uploads, then the review document is
written, the order is flagged `isReviewed` and the stall rating is
recomputed.  `newReviewId` is the generated uuid and `userName` the
display name fetched from the identity provider. -/
def createReview (newReviewId : String) (now : Nat) (userName : String)
    (userId orderId : String) (dto : CreateReviewDto) (files : List ImgFile)
    (db : DB) : Res Review :=
  match alookup db.orders orderId with
  | none => ⟨.error .notFound, db, []⟩
  | some order =>
    if order.userId ≠ userId then ⟨.error .forbidden, db, []⟩
    else if order.status ≠ .completed then ⟨.error .badRequest, db, []⟩
    else if (db.reviews.map Prod.snd).any (fun r => r.orderId = orderId) then
      ⟨.error .badRequest, db, []⟩
    else if files.length > MAX_IMAGES then ⟨.error .badRequest, db, []⟩
    else if files.any (fun f =>
        match validateImageFile (some f) with
        | .ok _ => false
        | .error _ => true) then
      ⟨.error .badRequest, db, []⟩
    else
      match alookup db.stalls order.stallId with
      | none => ⟨.error .notFound, db,
          (List.range files.length).map
            (fun i => .upload (reviewImgUrl newReviewId now i))⟩
      | some stall =>
        let imageUrls := (List.range files.length).map
          (fun i => reviewImgUrl newReviewId now i)
        let reviewData : Review :=
          { id := newReviewId, orderId := orderId, userId := userId,
            stallId := order.stallId, stallName := stall.name,
            userName := userName, rating := dto.rating,
            comment := dto.comment.getD "", tags := dto.tags.getD [],
            imageUrls := imageUrls, createdAt := now, updatedAt := now }
        let order' : OrderDoc :=
          { order with isReviewed := some true, updatedAt := now }
        let db1 := { db with reviews := aset db.reviews newReviewId reviewData }
        let db2 := { db1 with orders := aset db1.orders orderId order' }
        let db3 := updateStallRating now order.stallId db2
        ⟨.ok reviewData, db3, imageUrls.map StorageFx.upload⟩

/-! ## Concrete fixtures and claim theorems -/

deriving instance DecidableEq for Except

/-- A valid payment-proof file. -/
def fileOk : ImgFile := ⟨"image/jpeg", 1024⟩

/-- Scenario cart of the spec: one item at price 15000, quantity 2. -/
def c1Item : CartItem := ⟨"m1", "Nasi Goreng", 15000, "img1", 2, 30000⟩

def c1Cart : Cart :=
  { userId := "u1", stallId := "s1", stallName := "Warung Bu Sri",
    items := [c1Item], totalPrice := 30000, createdAt := 0, updatedAt := 0 }

def c1Db : DB := ⟨[], [], [("u1", c1Cart)], [], []⟩

/-- The order document `checkout "o1" 5` produces from `c1Db`. -/
def c1Order : OrderDoc :=
  { id := "o1", userId := "u1", stallId := "s1", stallName := "Warung Bu Sri",
    stallImageUrl := none, items := [c1Item], itemsTotal := none,
    appFee := none, deliveryMethod := none, deliveryFee := none,
    totalPrice := 30000, paymentProofUrl := some (proofUrl "o1" 5),
    status := .waiting_confirmation, rejectionReason := none,
    isReviewed := none, createdAt := 5, updatedAt := 5 }

/-- Claim C1: checkout is supposed to persist `itemsTotal` = cart total, a
fixed `appFee`, a delivery-dependent `deliveryFee` and `totalPrice` =
`itemsTotal + appFee + deliveryFee`.  The service instead copies
`cart.totalPrice` into `totalPrice` and writes none of the fee fields, so
the order created from the spec's scenario cart (items total 30000,
pickup, app fee 1000) carries no `itemsTotal`/`appFee`/`deliveryFee` and
its total is 30000, not 30000 + 1000 + 0 = 31000 as the documented
breakdown requires. -/
theorem C1_checkout_omits_fee_fields :
    (checkout "o1" 5 false "u1" (some fileOk) c1Db).out = .ok c1Order ∧
    alookup (checkout "o1" 5 false "u1" (some fileOk) c1Db).db.orders "o1" =
      some c1Order ∧
    c1Order.itemsTotal = none ∧
    c1Order.appFee = none ∧
    c1Order.deliveryFee = none ∧
    c1Order.deliveryMethod = none ∧
    c1Order.totalPrice = 30000 ∧
    c1Order.totalPrice ≠ 30000 + 1000 + 0 := by
  refine ⟨?_, ?_, rfl, rfl, rfl, rfl, rfl, by decide⟩ <;> decide

def c2Order : OrderDoc :=
  { id := "o2", userId := "u1", stallId := "s1", stallName := "Warung Bu Sri",
    stallImageUrl := none, items := [c1Item], itemsTotal := none,
    appFee := none, deliveryMethod := none, deliveryFee := none,
    totalPrice := 30000, paymentProofUrl := some (proofUrl "o2" 5),
    status := .waiting_confirmation, rejectionReason := none,
    isReviewed := none, createdAt := 5, updatedAt := 5 }

def c2Db : DB := ⟨[], [], [], [("o2", c2Order)], []⟩

/-- The document `confirmPayment` persists for `c2Order`. -/
def c2Order' : OrderDoc := { c2Order with status := .confirmed, updatedAt := 7 }

/-- Claim C2: the write path is supposed never to persist the legacy
status `confirmed` (seller approval should write `processing`), and the
read path is supposed to present a persisted `confirmed` as `processing`.
In the service, `confirmPayment` on an order in `waiting_confirmation`
persists `status: CONFIRMED`, and the `OrderEntity` read path (used by
every order endpoint of the service) returns that status unchanged; only
the unused `OrderListEntity` normalizes it. -/
theorem C2_confirm_persists_legacy_confirmed :
    (confirmPayment 7 "s1" "o2" c2Db).out = .ok c2Order' ∧
    alookup (confirmPayment 7 "s1" "o2" c2Db).db.orders "o2" = some c2Order' ∧
    c2Order'.status = .confirmed ∧
    OrderStatus.confirmed ≠ OrderStatus.processing ∧
    (orderEntity c2Order').status = .confirmed ∧
    orderListStatus c2Order' = .processing := by
  refine ⟨?_, ?_, rfl, by decide, rfl, ?_⟩ <;> decide

/-- Order fixture builder for the transition claims. -/
def mkOrder (id uid sid : String) (st : OrderStatus) (created : Nat) : OrderDoc :=
  { id := id, userId := uid, stallId := sid, stallName := "Warung Bu Sri",
    stallImageUrl := none, items := [c1Item], itemsTotal := none,
    appFee := none, deliveryMethod := none, deliveryFee := none,
    totalPrice := 30000, paymentProofUrl := some (proofUrl id 5),
    status := st, rejectionReason := none, isReviewed := none,
    createdAt := created, updatedAt := created }

def c3Db : DB :=
  ⟨[], [], [],
   [("op", mkOrder "op" "u1" "s1" .processing 5),
    ("oc", mkOrder "oc" "u1" "s1" .confirmed 5)], []⟩

/-- Claim C3 as frozen says `completeOrder` succeeds exactly in status
`PROCESSING`.  On the code, completing an order whose status is
`processing` fails with the invalid-state error, while completing an order
whose status is the legacy value `confirmed` succeeds — the guard is
`status !== CONFIRMED`. -/
theorem C3_counterexample_complete_requires_confirmed :
    (completeOrder 9 "s1" "op" c3Db).out = .error .badRequest ∧
    (completeOrder 9 "s1" "op" c3Db).db = c3Db ∧
    (completeOrder 9 "s1" "oc" c3Db).out =
      .ok { mkOrder "oc" "u1" "s1" .confirmed 5 with
            status := .completed, updatedAt := 9 } := by
  refine ⟨?_, ?_, ?_⟩ <;> decide

/-- Claim C3 (amended): for an existing order of the caller's stall,
`confirmPayment` and `rejectPayment` succeed exactly when the status is
`waiting_confirmation`, and `completeOrder` succeeds exactly when the
status is the legacy value `confirmed` (the alias of `processing` written
by `confirmPayment`); a call in any other status returns the
invalid-state 400 error and leaves the database — in particular the
order's status — unchanged. -/
theorem C3_transition_guards (now : Nat) (stallId orderId reason : String)
    (db : DB) (o : OrderDoc)
    (hord : alookup db.orders orderId = some o)
    (hown : o.stallId = stallId) :
    ((o.status = .waiting_confirmation →
        (confirmPayment now stallId orderId db).out =
          .ok { o with status := .confirmed, updatedAt := now }) ∧
     (o.status ≠ .waiting_confirmation →
        (confirmPayment now stallId orderId db).out = .error .badRequest ∧
        (confirmPayment now stallId orderId db).db = db)) ∧
    ((o.status = .waiting_confirmation →
        (rejectPayment now stallId orderId reason db).out =
          .ok { o with status := .rejected, rejectionReason := some reason,
                       updatedAt := now }) ∧
     (o.status ≠ .waiting_confirmation →
        (rejectPayment now stallId orderId reason db).out = .error .badRequest ∧
        (rejectPayment now stallId orderId reason db).db = db)) ∧
    ((o.status = .confirmed →
        (completeOrder now stallId orderId db).out =
          .ok { o with status := .completed, updatedAt := now }) ∧
     (o.status ≠ .confirmed →
        (completeOrder now stallId orderId db).out = .error .badRequest ∧
        (completeOrder now stallId orderId db).db = db)) := by
  refine ⟨⟨?_, ?_⟩, ⟨?_, ?_⟩, ⟨?_, ?_⟩⟩ <;> intro hst <;>
    simp [confirmPayment, rejectPayment, completeOrder, hord, hown, hst]

def c3wOrder : OrderDoc := mkOrder "ow" "u1" "s1" .waiting_confirmation 5

def c3wDb : DB := ⟨[], [], [], [("ow", c3wOrder)], []⟩

theorem C3_transition_guards_witness :
    (confirmPayment 3 "s1" "ow" c3wDb).out =
      .ok { c3wOrder with status := .confirmed, updatedAt := 3 } ∧
    (completeOrder 3 "s1" "ow" c3wDb).out = .error .badRequest ∧
    (completeOrder 3 "s1" "ow" c3wDb).db = c3wDb := by
  have h := C3_transition_guards 3 "s1" "ow" "r" c3wDb c3wOrder (by decide) rfl
  exact ⟨h.1.1 rfl, (h.2.2.2 (by decide)).1, (h.2.2.2 (by decide)).2⟩

def c4Order : OrderDoc :=
  { mkOrder "o4" "u1" "s1" .rejected 5 with
    rejectionReason := some "Bukti tidak terbaca" }

def c4Db : DB := ⟨[], [], [], [("o4", c4Order)], []⟩

/-- The document `uploadPaymentProof 11` persists for `c4Order`. -/
def c4Order' : OrderDoc :=
  { c4Order with paymentProofUrl := some (proofUrl "o4" 11),
                 status := .waiting_confirmation, updatedAt := 11 }

/-- Claim C4 as frozen says resubmission sets `rejectionReason` to null.
The service's update payload only touches `paymentProofUrl`, `status` and
`updatedAt`: on a rejected order with a stored reason, resubmitting the
proof succeeds, the status returns to `waiting_confirmation`, but the
stored `rejectionReason` is still the old reason, not null. -/
theorem C4_counterexample_reason_not_cleared :
    (uploadPaymentProof 11 "u1" "o4" (some fileOk) c4Db).out = .ok c4Order' ∧
    alookup (uploadPaymentProof 11 "u1" "o4" (some fileOk) c4Db).db.orders "o4" =
      some c4Order' ∧
    c4Order'.status = .waiting_confirmation ∧
    c4Order'.rejectionReason = some "Bukti tidak terbaca" ∧
    c4Order'.rejectionReason ≠ none := by
  refine ⟨?_, ?_, rfl, rfl, by decide⟩ <;> decide

/-- Claim C4 (amended): with a valid proof file, resubmission is accepted
exactly when the order's status is `rejected` (any other status gets the
400 error and leaves the database unchanged); on success the status
becomes `waiting_confirmation`, the old proof object is deleted before
the new one is uploaded, and `rejectionReason` is left unchanged rather
than cleared to null. -/
theorem C4_resubmit_only_when_rejected (now : Nat) (userId orderId : String)
    (file : Option ImgFile) (db : DB) (o : OrderDoc)
    (hv : validateImageFile file = .ok ())
    (hord : alookup db.orders orderId = some o)
    (hown : o.userId = userId) :
    (o.status ≠ .rejected →
       (uploadPaymentProof now userId orderId file db).out = .error .badRequest ∧
       (uploadPaymentProof now userId orderId file db).db = db) ∧
    (o.status = .rejected →
       (uploadPaymentProof now userId orderId file db).out =
         .ok { o with paymentProofUrl := some (proofUrl orderId now),
                      status := .waiting_confirmation, updatedAt := now } ∧
       alookup (uploadPaymentProof now userId orderId file db).db.orders orderId =
         some { o with paymentProofUrl := some (proofUrl orderId now),
                       status := .waiting_confirmation, updatedAt := now } ∧
       OrderDoc.rejectionReason
         { o with paymentProofUrl := some (proofUrl orderId now),
                  status := .waiting_confirmation, updatedAt := now } =
         o.rejectionReason ∧
       (uploadPaymentProof now userId orderId file db).fx =
         (match o.paymentProofUrl with
          | some url => [StorageFx.deleteObj url]
          | none => []) ++ [StorageFx.upload (proofUrl orderId now)]) := by
  constructor
  · intro hst
    simp [uploadPaymentProof, hv, hord, hown, hst]
  · intro hst
    refine ⟨?_, ?_, rfl, ?_⟩ <;>
      simp [uploadPaymentProof, hv, hord, hown, hst, alookup_aset_self]

theorem C4_resubmit_witness :
    (uploadPaymentProof 11 "u1" "o4" (some fileOk) c4Db).out = .ok c4Order' ∧
    (uploadPaymentProof 11 "u1" "o4" (some fileOk) c4Db).fx =
      [StorageFx.deleteObj (proofUrl "o4" 5), StorageFx.upload (proofUrl "o4" 11)] := by
  have h := C4_resubmit_only_when_rejected 11 "u1" "o4" (some fileOk) c4Db c4Order
    rfl (by decide) rfl
  exact ⟨(h.2 rfl).1, (h.2 rfl).2.2.2⟩

/-- Method `validateImageFile` only ever throws `BadRequestException`. -/
theorem validateImageFile_error_badRequest (file : Option ImgFile) (e : ErrKind)
    (h : validateImageFile file = .error e) : e = .badRequest := by
  match file with
  | none =>
    simp [validateImageFile] at h
    exact h.symm
  | some f =>
    by_cases hc : f.mimetype ∈ ALLOWED_IMAGE_TYPES
    · by_cases hs : f.size > MAX_FILE_SIZE
      · simp [validateImageFile, hc, hs] at h
        exact h.symm
      · simp [validateImageFile, hc, hs] at h
    · simp [validateImageFile, hc] at h
      exact h.symm

/-- The caller's cart document is absent or has no items. -/
def cartEmptyOrAbsent (db : DB) (userId : String) : Prop :=
  ∀ c, getCart db userId = some c → c.items = []

/-- Claim C5: when the proof file is missing, of a disallowed type or over
5MB, or the caller's cart is absent or empty, checkout fails with the
validation 400 error and performs no mutation: the database (orders and
cart included) is returned unchanged and no object-storage effect is
performed. -/
theorem C5_checkout_validation_no_mutation (newId : String) (now : Nat)
    (setFails : Bool) (userId : String) (file : Option ImgFile) (db : DB)
    (h : file = none ∨
         (∃ f, file = some f ∧
            (ALLOWED_IMAGE_TYPES.contains f.mimetype = false ∨
             f.size > MAX_FILE_SIZE)) ∨
         cartEmptyOrAbsent db userId) :
    (checkout newId now setFails userId file db).out = .error .badRequest ∧
    (checkout newId now setFails userId file db).db = db ∧
    (checkout newId now setFails userId file db).fx = [] := by
  rcases h with h | ⟨f, hf, hbad⟩ | hempty
  · subst h
    simp [checkout, validateImageFile]
  · subst hf
    rcases hbad with hty | hsz
    · have hty' : f.mimetype ∉ ALLOWED_IMAGE_TYPES := by simpa using hty
      simp [checkout, validateImageFile, hty']
    · by_cases hc : f.mimetype ∈ ALLOWED_IMAGE_TYPES
      · simp [checkout, validateImageFile, hc, hsz]
      · simp [checkout, validateImageFile, hc]
  · cases hval : validateImageFile file with
    | error e =>
      have := validateImageFile_error_badRequest file e hval
      subst this
      simp [checkout, hval]
    | ok u =>
      cases u
      cases hcart : getCart db userId with
      | none => simp [checkout, hval, hcart]
      | some c =>
        have hitems := hempty c hcart
        simp [checkout, hval, hcart, hitems]

theorem C5_checkout_validation_witness :
    (checkout "o5" 1 false "u1" none c1Db).out = .error .badRequest ∧
    (checkout "o5" 1 false "u1" none c1Db).db = c1Db := by
  have h := C5_checkout_validation_no_mutation "o5" 1 false "u1" none c1Db
    (Or.inl rfl)
  exact ⟨h.1, h.2.1⟩

/-- Claim C6: when checkout succeeds, the caller's cart document no longer
exists and the order document is stored under the new id; when the remote
order write fails, checkout fails and the whole database — the cart
document included — is left as it was. -/
theorem C6_cart_cleared_only_after_order_write (newId : String) (now : Nat)
    (userId : String) (file : Option ImgFile) (db : DB) :
    (∀ o, (checkout newId now false userId file db).out = .ok o →
       alookup (checkout newId now false userId file db).db.carts userId = none ∧
       alookup (checkout newId now false userId file db).db.orders newId = some o) ∧
    (checkout newId now true userId file db).db = db ∧
    (∀ o, (checkout newId now true userId file db).out ≠ .ok o) := by
  cases hval : validateImageFile file with
  | error e =>
    refine ⟨?_, ?_, ?_⟩ <;> simp [checkout, hval]
  | ok u =>
    cases u
    cases hcart : getCart db userId with
    | none => refine ⟨?_, ?_, ?_⟩ <;> simp [checkout, hval, hcart]
    | some c =>
      by_cases hitems : c.items.length = 0
      · refine ⟨?_, ?_, ?_⟩ <;> simp [checkout, hval, hcart, hitems]
      · refine ⟨?_, ?_, ?_⟩
        · intro o ho
          simp [checkout, hval, hcart, hitems, clearCart] at ho ⊢
          rw [← ho]
          exact ⟨alookup_adelete_self _ _, alookup_aset_self _ _ _⟩
        · simp [checkout, hval, hcart, hitems]
        · simp [checkout, hval, hcart, hitems]

theorem C6_cart_cleared_witness :
    alookup (checkout "o1" 5 false "u1" (some fileOk) c1Db).db.carts "u1" = none ∧
    alookup (checkout "o1" 5 false "u1" (some fileOk) c1Db).db.orders "o1" =
      some c1Order ∧
    (checkout "o1" 5 true "u1" (some fileOk) c1Db).db = c1Db := by
  have h := C6_cart_cleared_only_after_order_write "o1" 5 "u1" (some fileOk) c1Db
  have hs := h.1 c1Order (by decide)
  exact ⟨hs.1, hs.2, h.2.1⟩

def c7Menu : MenuItem := ⟨"s1", "Nasi Goreng", 15000, "img1", true⟩

def c7Stall : Stall := ⟨"Warung Bu Sri", "qris1", 0, 0, 0⟩

def c7Db : DB := ⟨[("m1", c7Menu)], [("s1", c7Stall)], [], [], []⟩

/-- Database after a first DTO-legal `addToCart` of 99 units of `m1`. -/
def c7Db1 : DB := (addToCart 1 "u1" ⟨"m1", 99⟩ c7Db).db

/-- Claim C7 as frozen says every item quantity of a reachable cart lies
in 1..99.  The DTO bounds each request's quantity to 1..99, but the
increment branch of `addToCart` adds the requested quantity to the stored
one without re-checking the cap: two legal requests for 99 and 1 units of
the same item leave a cart whose item has quantity 100. -/
theorem C7_counterexample_quantity_overflow :
    AddToCartSchema.parse "m1" (some 99) = some ⟨"m1", 99⟩ ∧
    AddToCartSchema.parse "m1" (some 1) = some ⟨"m1", 1⟩ ∧
    (addToCart 2 "u1" ⟨"m1", 1⟩ c7Db1).out =
      .ok { userId := "u1", stallId := "s1", stallName := "Warung Bu Sri",
            items := [⟨"m1", "Nasi Goreng", 15000, "img1", 100, 1500000⟩],
            totalPrice := 1500000, createdAt := 1, updatedAt := 2 } ∧
    ¬ (100 ≤ 99) := by
  exact ⟨by decide, by decide, by decide, by decide⟩

/-- Per-item part of the cart invariant: quantity at least 1, derived
subtotal, and the item's menu item belongs to the stall `sid`. -/
def itemGood (db : DB) (sid : String) (it : CartItem) : Prop :=
  1 ≤ it.quantity ∧ it.subtotal = it.price * it.quantity ∧
  ∃ m, alookup db.menuItems it.menuItemId = some m ∧ m.stallId = sid

/-- Cart invariant of claim C7, minus the refuted 99 upper bound: the
cart is never empty, every item comes from the cart's stall with quantity
at least 1 and `subtotal = price * quantity`, and `totalPrice` is the sum
of the subtotals. -/
def CartGood (db : DB) (c : Cart) : Prop :=
  c.items ≠ [] ∧ (∀ it ∈ c.items, itemGood db c.stallId it) ∧
  c.totalPrice = cartTotal c.items

theorem incFirst_length (items : List CartItem) (mid : String) (q : Nat) :
    (incFirst items mid q).length = items.length := by
  induction items with
  | nil => simp [incFirst]
  | cons hd tl ih =>
    by_cases hm : hd.menuItemId = mid <;> simp [incFirst, hm, ih]

theorem setQtyFirst_length (items : List CartItem) (mid : String) (q : Nat) :
    (setQtyFirst items mid q).length = items.length := by
  induction items with
  | nil => simp [setQtyFirst]
  | cons hd tl ih =>
    by_cases hm : hd.menuItemId = mid <;> simp [setQtyFirst, hm, ih]

theorem incFirst_itemGood (db : DB) (sid mid : String) (q : Nat) (hq : 1 ≤ q)
    (items : List CartItem) (h : ∀ it ∈ items, itemGood db sid it) :
    ∀ it ∈ incFirst items mid q, itemGood db sid it := by
  induction items with
  | nil => simp [incFirst]
  | cons hd tl ih =>
    intro it hit
    by_cases hm : hd.menuItemId = mid
    · simp only [incFirst, hm, if_pos] at hit
      rcases List.mem_cons.1 hit with rfl | hmem
      · obtain ⟨h1, h2, m, hm1, hm2⟩ := h hd (List.mem_cons_self _ _)
        refine ⟨?_, rfl, m, ?_, hm2⟩
        · show 1 ≤ hd.quantity + q
          omega
        · show alookup db.menuItems mid = some m
          rw [← hm]
          exact hm1
      · exact h it (List.mem_cons_of_mem _ hmem)
    · simp only [incFirst, hm, if_neg, not_false_iff] at hit
      rcases List.mem_cons.1 hit with rfl | hmem
      · exact h it (List.mem_cons_self _ _)
      · exact ih (fun x hx => h x (List.mem_cons_of_mem _ hx)) it hmem

theorem setQtyFirst_itemGood (db : DB) (sid mid : String) (q : Nat) (hq : 1 ≤ q)
    (items : List CartItem) (h : ∀ it ∈ items, itemGood db sid it) :
    ∀ it ∈ setQtyFirst items mid q, itemGood db sid it := by
  induction items with
  | nil => simp [setQtyFirst]
  | cons hd tl ih =>
    intro it hit
    by_cases hm : hd.menuItemId = mid
    · simp only [setQtyFirst, hm, if_pos] at hit
      rcases List.mem_cons.1 hit with rfl | hmem
      · obtain ⟨h1, h2, m, hm1, hm2⟩ := h hd (List.mem_cons_self _ _)
        refine ⟨hq, rfl, m, ?_, hm2⟩
        show alookup db.menuItems mid = some m
        rw [← hm]
        exact hm1
      · exact h it (List.mem_cons_of_mem _ hmem)
    · simp only [setQtyFirst, hm, if_neg, not_false_iff] at hit
      rcases List.mem_cons.1 hit with rfl | hmem
      · exact h it (List.mem_cons_self _ _)
      · exact ih (fun x hx => h x (List.mem_cons_of_mem _ hx)) it hmem

theorem CartGood_inc (db : DB) (c₀ : Cart) (mid : String) (q now : Nat)
    (hq : 1 ≤ q) (hg : CartGood db c₀) :
    CartGood db { c₀ with items := incFirst c₀.items mid q,
                          totalPrice := cartTotal (incFirst c₀.items mid q),
                          updatedAt := now } := by
  obtain ⟨h1, h2, h3⟩ := hg
  refine ⟨?_, ?_, rfl⟩
  · intro heq
    have heq' : incFirst c₀.items mid q = [] := heq
    have hl := incFirst_length c₀.items mid q
    rw [heq'] at hl
    exact h1 (List.length_eq_zero.1 hl.symm)
  · intro it hit
    exact incFirst_itemGood db c₀.stallId mid q hq c₀.items h2 it hit

theorem CartGood_setQty (db : DB) (c₀ : Cart) (mid : String) (q now : Nat)
    (hq : 1 ≤ q) (hg : CartGood db c₀) :
    CartGood db { c₀ with items := setQtyFirst c₀.items mid q,
                          totalPrice := cartTotal (setQtyFirst c₀.items mid q),
                          updatedAt := now } := by
  obtain ⟨h1, h2, h3⟩ := hg
  refine ⟨?_, ?_, rfl⟩
  · intro heq
    have heq' : setQtyFirst c₀.items mid q = [] := heq
    have hl := setQtyFirst_length c₀.items mid q
    rw [heq'] at hl
    exact h1 (List.length_eq_zero.1 hl.symm)
  · intro it hit
    exact setQtyFirst_itemGood db c₀.stallId mid q hq c₀.items h2 it hit

theorem CartGood_append (db : DB) (c₀ : Cart) (m : MenuItem) (mid : String)
    (q now : Nat) (hq : 1 ≤ q) (hm : alookup db.menuItems mid = some m)
    (hstall : m.stallId = c₀.stallId) (hg : CartGood db c₀) :
    CartGood db { c₀ with
        items := c₀.items ++ [⟨mid, m.name, m.price, m.imageUrl, q, m.price * q⟩],
        totalPrice :=
          cartTotal (c₀.items ++ [⟨mid, m.name, m.price, m.imageUrl, q, m.price * q⟩]),
        updatedAt := now } := by
  obtain ⟨h1, h2, h3⟩ := hg
  refine ⟨by simp, ?_, rfl⟩
  intro it hit
  rcases List.mem_append.1 hit with hmem | hmem
  · exact h2 it hmem
  · simp at hmem
    subst hmem
    exact ⟨hq, rfl, m, hm, hstall⟩

theorem CartGood_new (db : DB) (uid sname : String) (m : MenuItem)
    (mid : String) (q now : Nat) (hq : 1 ≤ q)
    (hm : alookup db.menuItems mid = some m) :
    CartGood db { userId := uid, stallId := m.stallId, stallName := sname,
                  items := [⟨mid, m.name, m.price, m.imageUrl, q, m.price * q⟩],
                  totalPrice := m.price * q, createdAt := now, updatedAt := now } := by
  refine ⟨by simp, ?_, by simp [cartTotal]⟩
  intro it hit
  simp at hit
  subst hit
  exact ⟨hq, rfl, m, hm, rfl⟩

theorem CartGood_filter (db : DB) (c₀ : Cart) (mid : String) (now : Nat)
    (hg : CartGood db c₀)
    (hne : ¬ (c₀.items.filter (fun it => it.menuItemId ≠ mid)).length = 0) :
    CartGood db { c₀ with
        items := c₀.items.filter (fun it => it.menuItemId ≠ mid),
        totalPrice := cartTotal (c₀.items.filter (fun it => it.menuItemId ≠ mid)),
        updatedAt := now } := by
  obtain ⟨h1, h2, h3⟩ := hg
  refine ⟨?_, ?_, rfl⟩
  · intro heq
    have heq' : c₀.items.filter (fun it => it.menuItemId ≠ mid) = [] := heq
    exact hne (by rw [heq']; rfl)
  · intro it hit
    exact h2 it (List.mem_of_mem_filter hit)

/-- Claim C7 (amended): every cart the cart operations return and store
satisfies the single-stall invariant (all items come from menu items of
the cart's stall; adding an item of another stall is rejected without
mutation), every item has `subtotal = price * quantity` with quantity at
least 1, `totalPrice` is the sum of the item subtotals, and removing the
last item deletes the cart document rather than leaving an empty cart.
The frozen claim's upper bound `quantity ≤ 99` holds for each single
request's DTO but not for the stored quantity, which repeated adds of the
same item can push past 99 (see the counterexample). -/
theorem C7_cart_invariants (now : Nat) (userId : String) (dto : AddToCartDto)
    (menuItemId : String) (q : Nat) (db : DB) :
    ((∀ m c₀ s, alookup db.menuItems dto.menuItemId = some m →
       m.isAvailable = true → alookup db.stalls m.stallId = some s →
       alookup db.carts userId = some c₀ → c₀.stallId ≠ m.stallId →
       (addToCart now userId dto db).out = .error .badRequest ∧
       (addToCart now userId dto db).db = db) ∧
     ((∀ c₀, alookup db.carts userId = some c₀ → CartGood db c₀) →
       ∀ c', (addToCart now userId dto db).out = .ok c' →
         CartGood db c' ∧
         alookup (addToCart now userId dto db).db.carts userId = some c')) ∧
    (1 ≤ q →
       (∀ c₀, alookup db.carts userId = some c₀ → CartGood db c₀) →
       ∀ c', (updateItemQuantity now userId menuItemId q db).out = .ok c' →
         CartGood db c' ∧
         alookup (updateItemQuantity now userId menuItemId q db).db.carts userId
           = some c') ∧
    ((∀ c₀, alookup db.carts userId = some c₀ →
        c₀.items.filter (fun it => it.menuItemId ≠ menuItemId) = [] →
        alookup (removeItem now userId menuItemId db).db.carts userId = none) ∧
     ((∀ c₀, alookup db.carts userId = some c₀ → CartGood db c₀) →
       ∀ c', alookup (removeItem now userId menuItemId db).db.carts userId
           = some c' → CartGood db c')) := by
  have hq1 : 1 ≤ (if dto.quantity = 0 then 1 else dto.quantity) := by
    by_cases h0 : dto.quantity = 0 <;> simp [h0] <;> omega
  refine ⟨⟨?_, ?_⟩, ?_, ?_, ?_⟩
  · -- (a) single-stall rejection
    intro m c₀ s hm hav hs hc hne
    constructor <;> simp [addToCart, hm, hav, hs, hc, hne]
  · -- (b) addToCart preserves the invariant
    intro hgood c' hout
    cases hm : alookup db.menuItems dto.menuItemId with
    | none => simp [addToCart, hm] at hout
    | some m =>
      by_cases hav : m.isAvailable
      · cases hs : alookup db.stalls m.stallId with
        | none => simp [addToCart, hm, hav, hs] at hout
        | some s =>
          cases hc : alookup db.carts userId with
          | some c₀ =>
            by_cases hne : c₀.stallId = m.stallId
            · have hg₀ := hgood c₀ hc
              by_cases hex : c₀.items.any (fun it => it.menuItemId = dto.menuItemId)
              · simp [addToCart, hm, hav, hs, hc, hne, hex] at hout ⊢
                subst hout
                rw [← hne]
                refine ⟨?_, alookup_aset_self _ _ _⟩
                exact CartGood_inc db c₀ dto.menuItemId _ now hq1 hg₀
              · simp [addToCart, hm, hav, hs, hc, hne, hex] at hout ⊢
                subst hout
                rw [← hne]
                refine ⟨?_, alookup_aset_self _ _ _⟩
                have happ := CartGood_append db c₀ m dto.menuItemId _ now hq1 hm
                  hne.symm hg₀
                simpa [mul_ite, mul_one] using happ
            · simp [addToCart, hm, hav, hs, hc, hne] at hout
          | none =>
            simp [addToCart, hm, hav, hs, hc] at hout ⊢
            subst hout
            refine ⟨?_, alookup_aset_self _ _ _⟩
            have hnew := CartGood_new db userId s.name m dto.menuItemId _ now hq1 hm
            simpa [mul_ite, mul_one] using hnew
      · simp [addToCart, hm, hav] at hout
  · -- (c) updateItemQuantity preserves the invariant
    intro hq hgood c' hout
    cases hc : alookup db.carts userId with
    | none => simp [updateItemQuantity, hc] at hout
    | some c₀ =>
      by_cases hany : c₀.items.any (fun it => it.menuItemId = menuItemId)
      · simp [updateItemQuantity, hc, hany] at hout ⊢
        subst hout
        refine ⟨?_, alookup_aset_self _ _ _⟩
        exact CartGood_setQty db c₀ menuItemId q now hq (hgood c₀ hc)
      · simp [updateItemQuantity, hc, hany] at hout
  · -- (d1) removing the last item deletes the cart document
    intro c₀ hc hfil
    have hlen0 : (c₀.items.filter (fun it => it.menuItemId ≠ menuItemId)).length = 0 := by
      rw [hfil]
      rfl
    simp only [removeItem, hc]
    rw [if_pos hlen0]
    exact alookup_adelete_self _ _
  · -- (d2) any cart removeItem leaves stored satisfies the invariant
    intro hgood c' hc'
    cases hc : alookup db.carts userId with
    | none =>
      simp [removeItem, hc] at hc'
    | some c₀ =>
      by_cases hlen :
          (c₀.items.filter (fun it => it.menuItemId ≠ menuItemId)).length = 0
      · simp only [removeItem, hc] at hc'
        rw [if_pos hlen] at hc'
        simp [alookup_adelete_self] at hc'
      · simp only [removeItem, hc] at hc'
        rw [if_neg hlen] at hc'
        simp [alookup_aset_self] at hc'
        subst hc'
        have hflt := CartGood_filter db c₀ menuItemId now (hgood c₀ hc) hlen
        simpa using hflt

def c7wCart : Cart :=
  { userId := "u1", stallId := "s1", stallName := "Warung Bu Sri",
    items := [⟨"m1", "Nasi Goreng", 15000, "img1", 1, 15000⟩],
    totalPrice := 15000, createdAt := 0, updatedAt := 0 }

def c7wMenu2 : MenuItem := ⟨"s2", "Es Teh", 5000, "img2", true⟩

def c7wDb : DB :=
  ⟨[("m1", c7Menu), ("m2", c7wMenu2)],
   [("s1", c7Stall), ("s2", ⟨"Warung Lain", "qris2", 0, 0, 0⟩)],
   [("u1", c7wCart)], [], []⟩

theorem C7_cart_invariants_witness :
    (addToCart 3 "u1" ⟨"m2", 1⟩ c7wDb).out = .error .badRequest ∧
    (addToCart 3 "u1" ⟨"m2", 1⟩ c7wDb).db = c7wDb := by
  have h := C7_cart_invariants 3 "u1" ⟨"m2", 1⟩ "m1" 1 c7wDb
  exact h.1.1 c7wMenu2 c7wCart ⟨"Warung Lain", "qris2", 0, 0, 0⟩
    (by decide) rfl (by decide) (by decide) (by decide)

/-- Method `updateStallRating` only touches the stalls collection. -/
theorem updateStallRating_orders (now : Nat) (sid : String) (db : DB) :
    (updateStallRating now sid db).orders = db.orders ∧
    (updateStallRating now sid db).reviews = db.reviews ∧
    (updateStallRating now sid db).carts = db.carts := by
  cases h : alookup db.stalls sid with
  | none => simp [updateStallRating, h]
  | some s =>
    simp only [updateStallRating, h]
    split <;> simp

/-- The value just stored under `k` is among the values of the list. -/
theorem any_aset_self {α : Type} (l : List (String × α)) (k : String) (v : α)
    (p : α → Bool) (hv : p v = true) :
    ((aset l k v).map Prod.snd).any p = true := by
  induction l with
  | nil => simp [aset, hv]
  | cons hd tl ih =>
    by_cases h : hd.1 = k
    · simp [aset, h, hv]
    · simp only [aset, h, if_neg, not_false_iff, List.map_cons, List.any_cons]
      simp [ih]

/-- Claim C8: `createReview` succeeds only when the target order's status
is `completed` and no review with that `orderId` exists yet; a duplicate
attempt fails with the 400 error and writes nothing, and after a
successful creation any further attempt for the same order fails without
touching the database. -/
theorem C8_review_once_per_completed_order
    (newId newId2 : String) (now now2 : Nat) (userName userId orderId : String)
    (dto dto2 : CreateReviewDto) (files files2 : List ImgFile) (db : DB)
    (o : OrderDoc)
    (hord : alookup db.orders orderId = some o)
    (hown : o.userId = userId) :
    (o.status = .completed →
     (db.reviews.map Prod.snd).any (fun r => r.orderId = orderId) = true →
       (createReview newId now userName userId orderId dto files db).out =
         .error .badRequest ∧
       (createReview newId now userName userId orderId dto files db).db = db) ∧
    (∀ rv, (createReview newId now userName userId orderId dto files db).out = .ok rv →
       o.status = .completed ∧
       (db.reviews.map Prod.snd).any (fun r => r.orderId = orderId) = false ∧
       rv.orderId = orderId ∧
       (createReview newId2 now2 userName userId orderId dto2 files2
          (createReview newId now userName userId orderId dto files db).db).out =
         .error .badRequest ∧
       (createReview newId2 now2 userName userId orderId dto2 files2
          (createReview newId now userName userId orderId dto files db).db).db =
         (createReview newId now userName userId orderId dto files db).db) := by
  constructor
  · intro hst hdup
    constructor <;> simp [createReview, hord, hown, hst, hdup]
  · intro rv hout
    by_cases hst : o.status = .completed
    · by_cases hdup :
          (db.reviews.map Prod.snd).any (fun r => r.orderId = orderId) = true
      · simp [createReview, hord, hown, hst, hdup] at hout
      · have hdupf : (db.reviews.map Prod.snd).any
            (fun r => r.orderId = orderId) = false := by
          simpa using hdup
        cases hstall : alookup db.stalls o.stallId with
        | none =>
          by_cases hcnt : files.length > MAX_IMAGES
          · simp [createReview, hord, hown, hst, hdupf, hcnt] at hout
          · by_cases hval : files.any (fun f =>
                match validateImageFile (some f) with
                | .ok _ => false
                | .error _ => true) = true
            · simp [createReview, hord, hown, hst, hdupf, hcnt, hval] at hout
            · have hvalf : files.any (fun f =>
                  match validateImageFile (some f) with
                  | .ok _ => false
                  | .error _ => true) = false := by simpa using hval
              simp [createReview, hord, hown, hst, hdupf, hcnt, hvalf, hstall] at hout
        | some stall =>
          by_cases hcnt : files.length > MAX_IMAGES
          · simp [createReview, hord, hown, hst, hdupf, hcnt] at hout
          · by_cases hval : files.any (fun f =>
                match validateImageFile (some f) with
                | .ok _ => false
                | .error _ => true) = true
            · simp [createReview, hord, hown, hst, hdupf, hcnt, hval] at hout
            · have hvalf : files.any (fun f =>
                  match validateImageFile (some f) with
                  | .ok _ => false
                  | .error _ => true) = false := by simpa using hval
              simp [createReview, hord, hown, hst, hdupf, hcnt, hvalf, hstall] at hout
              refine ⟨hst, hdupf, ?_, ?_, ?_⟩
              · rw [← hout]
              · simp [createReview, hord, hown, hst, hdupf, hcnt, hvalf, hstall,
                      updateStallRating_orders, alookup_aset_self,
                      any_aset_self]
              · simp [createReview, hord, hown, hst, hdupf, hcnt, hvalf, hstall,
                      updateStallRating_orders, alookup_aset_self,
                      any_aset_self]
    · simp [createReview, hord, hown, hst] at hout

def c8Order : OrderDoc := mkOrder "o8" "u1" "s1" .completed 5

def c8Db : DB := ⟨[], [("s1", c7Stall)], [], [("o8", c8Order)], []⟩

/-- Review written by the first `createReview` call of the witness. -/
def c8Review : Review :=
  { id := "r1", orderId := "o8", userId := "u1", stallId := "s1",
    stallName := "Warung Bu Sri", userName := "Bob", rating := 5,
    comment := "", tags := [], imageUrls := [], createdAt := 20,
    updatedAt := 20 }

theorem C8_review_once_witness :
    (createReview "r2" 21 "Bob" "u1" "o8" ⟨4, none, none⟩ []
       (createReview "r1" 20 "Bob" "u1" "o8" ⟨5, none, none⟩ [] c8Db).db).out =
      .error .badRequest := by
  have h := C8_review_once_per_completed_order "r1" "r2" 20 21 "Bob" "u1" "o8"
    ⟨5, none, none⟩ ⟨4, none, none⟩ [] [] c8Db c8Order (by decide) rfl
  exact (h.2 c8Review (by decide)).2.2.2.1

def c9Order : OrderDoc := mkOrder "o9" "u1" "s1" .waiting_confirmation 100

def c9Db : DB := ⟨[], [], [], [("o9", c9Order)], []⟩

/-- A query asking for the date range [200, 300]. -/
def c9Query : QueryOrderDto := ⟨none, some 200, some 300, 1, 10⟩

/-- Claim C9 as frozen says every order returned by `getUserOrders` falls
within the requested `startDate`/`endDate` range.  The service never
consults those query fields: for a query asking for the range [200, 300],
the caller's order created at instant 100 is still returned. -/
theorem C9_counterexample_date_filter_ignored :
    (getUserOrders "u1" c9Query c9Db).out =
      .ok ([orderEntity c9Order], ⟨1, 1, 10, 1⟩) ∧
    (orderEntity c9Order).createdAt = 100 ∧
    c9Query.startDate = some 200 ∧
    ¬ (200 ≤ 100) := by
  exact ⟨by decide, rfl, rfl, by decide⟩

/-- Membership in the insertion sort implies membership in the input. -/
theorem mem_insertByCreatedAtDesc (o x : OrderDoc) (l : List OrderDoc)
    (h : x ∈ insertByCreatedAtDesc o l) : x = o ∨ x ∈ l := by
  induction l with
  | nil => simpa [insertByCreatedAtDesc] using h
  | cons hd tl ih =>
    by_cases hcmp : hd.createdAt ≤ o.createdAt
    · simp only [insertByCreatedAtDesc, hcmp, if_pos] at h
      rcases List.mem_cons.1 h with rfl | h2
      · exact Or.inl rfl
      · exact Or.inr h2
    · simp only [insertByCreatedAtDesc, hcmp, if_neg, not_false_iff] at h
      rcases List.mem_cons.1 h with rfl | h2
      · exact Or.inr (List.mem_cons_self _ _)
      · rcases ih h2 with h3 | h3
        · exact Or.inl h3
        · exact Or.inr (List.mem_cons_of_mem _ h3)

theorem mem_sortByCreatedAtDesc (x : OrderDoc) (l : List OrderDoc)
    (h : x ∈ sortByCreatedAtDesc l) : x ∈ l := by
  induction l with
  | nil => simpa [sortByCreatedAtDesc] using h
  | cons hd tl ih =>
    simp only [sortByCreatedAtDesc] at h
    rcases mem_insertByCreatedAtDesc hd x _ h with rfl | h2
    · exact List.mem_cons_self _ _
    · exact List.mem_cons_of_mem _ (ih h2)

/-- Claim C9 (amended): `getUserOrders` returns only the caller's orders,
filtered by the requested status when one is given, paginated to at most
`limit` entries, without touching the database; the `startDate`/`endDate`
query fields are accepted by the schema but ignored, so no date filtering
is applied to the result. -/
theorem C9_user_orders_filter (userId : String) (q : QueryOrderDto) (db : DB) :
    ∀ v, (getUserOrders userId q db).out = .ok v →
      (∀ e ∈ v.1, e.userId = userId ∧
         ∀ s, q.status = some s → e.status = s) ∧
      v.1.length ≤ (if q.limit = 0 then 10 else q.limit) ∧
      (getUserOrders userId q db).db = db := by
  intro v hout
  simp only [getUserOrders] at hout
  obtain rfl : _ = v := Except.ok.inj hout
  refine ⟨?_, ?_, rfl⟩
  · intro e he
    simp only [List.mem_map] at he
    obtain ⟨o, ho, rfl⟩ := he
    have ho2 : o ∈ sortByCreatedAtDesc ((db.orders.map Prod.snd).filter
        (fun o => o.userId == userId &&
          match q.status with
          | none => true
          | some s => o.status == s)) := by
      have := List.mem_of_mem_take ho
      exact List.mem_of_mem_drop this
    have ho3 := mem_sortByCreatedAtDesc _ _ ho2
    have ho4 := List.of_mem_filter ho3
    simp only [Bool.and_eq_true, beq_iff_eq] at ho4
    refine ⟨ho4.1, ?_⟩
    intro s hs
    have := ho4.2
    rw [hs] at this
    simpa using this
  · simpa using List.length_take_le _ _

theorem C9_user_orders_filter_witness :
    (∀ e ∈ [orderEntity c9Order], e.userId = "u1" ∧
       ∀ s, c9Query.status = some s → e.status = s) ∧
    ([orderEntity c9Order] : List OrderEntityView).length ≤ 10 := by
  have h := C9_user_orders_filter "u1" c9Query c9Db
    ([orderEntity c9Order], ⟨1, 1, 10, 1⟩) (by decide)
  exact ⟨h.1, by simpa using h.2.1⟩

def c10Order : OrderDoc := mkOrder "oz" "u1" "s1" .waiting_confirmation 5

def c10Db : DB := ⟨[], [], [], [("oz", c10Order)], []⟩

/-- The raw reject reason of claim C10: the two-character word `hi`
padded with eight trailing spaces, 10 characters in all. -/
def c10Raw : String := "hi        "

/-- Claim C10: `RejectOrderSchema` checks the 10-500 length bounds on the
raw submitted string and only then applies the trim transform, so a
10-character reason that is a short word padded with whitespace passes
validation, `rejectPayment` succeeds, and the stored `rejectionReason` is
the trimmed string of fewer than 10 characters. -/
theorem C10_reason_trimmed_after_bounds :
    c10Raw.length = 10 ∧
    RejectOrderSchema.parse c10Raw = some "hi" ∧
    ("hi" : String).length = 2 ∧
    (rejectEndpoint 13 "s1" "oz" c10Raw c10Db).out =
      .ok { c10Order with status := .rejected,
                          rejectionReason := some "hi", updatedAt := 13 } ∧
    alookup (rejectEndpoint 13 "s1" "oz" c10Raw c10Db).db.orders "oz" =
      some { c10Order with status := .rejected,
                           rejectionReason := some "hi", updatedAt := 13 } := by
  exact ⟨by decide, by decide, by decide, by decide, by decide⟩

end KampusMeal
